import Mathlib

/-!
Shallow embedding of the leptos-query query-cache engine
(src/query/src/query.rs, garbage_collector.rs, query_cache.rs,
query_observer.rs), used to settle the specification claims.

Conventions of the embedding:
* Timestamps ("instants") and durations are integral millisecond counts,
  plain `Int`, matching the i64 millisecond arithmetic of `time_until_stale`.
* The `Arc<Mutex<...>>` fields of `Query` and its `GarbageCollector` are
  flattened into one record; operations are state transformers.
* Opaque callbacks (fetch functions, listeners, cache-event observers,
  the persistence backend) are not represented by behaviour: a fetch
  function is identified by a `Nat` tag, listener/event notifications are
  pure side effects outside the claims and are dropped, and `set_state`
  additionally returns the `Bool` recording whether it re-entered
  `execute()` (which it does exactly when the new state is `Invalid`).
* `HashMap` observer sets are represented as lists in map-iteration
  order. Rust's `std::collections::HashMap` leaves iteration order
  unspecified (it is hash/seed dependent), so insertion takes the slot
  position as an explicit parameter; removal and lookup are by observer
  id, which is unique.
* The asynchronous `execute_query` is split at its single await point
  into a synchronous prefix (`execute_query_start`: `new_execution`,
  branch on the state, move to `Loading`/`Fetching`, invoke the fetcher)
  and a continuation (`execute_query_settle`: apply the fetch outcome,
  `finalize_execution`). An outcome of `none` is a failed or cancelled
  fetch; `some v` is a fetch that completed with value `v`.
-/

namespace LeptosQuery

/-- Embedding of `util::time_until_stale` (the util module itself is not in
the tree; the formula is fixed by spec section 4.4, "remaining time as
`(last_updated + gc_time) - now`, clamped to zero", and by the identical
copy in devtools src/timeout.rs): `max ((updated_at + stale_time) - now) 0`
in whole milliseconds. -/
def time_until_stale (updated_at : Int) (stale_time : Int) (now : Int) : Int :=
  max ((updated_at + stale_time) - now) 0

/-- Embedding of `garbage_collector::GcTime`. -/
inductive GcTime where
  | none
  | some (d : Int)
  | never
deriving DecidableEq, Repr

/-- Embedding of `GcTime::from_option`. -/
def GcTime.from_option : Option Int → GcTime
  | Option.some d => GcTime.some d
  | Option.none => GcTime.none

/-- Embedding of `GarbageCollector::update_gc_time`, acting on the stored
`gc_time` cell (the surrounding struct is flattened into `Query` below). -/
def GcTime.update_gc_time (self_gc_time : GcTime) (gc_time : Option Int) : GcTime :=
  match self_gc_time, gc_time with
  | GcTime.none, g => GcTime.from_option g
  | GcTime.some current, Option.some g =>
      if g > current then GcTime.some g else GcTime.some current
  | GcTime.some _, Option.none => GcTime.never
  | GcTime.never, _ => GcTime.never

/-- Widening order on GC policies: `none` (Unset) below every `some d`
(Bounded), `some` ordered by duration, `never` (Unbounded) on top. -/
def GcTime.wle : GcTime → GcTime → Bool
  | GcTime.none, _ => true
  | GcTime.some _, GcTime.none => false
  | GcTime.some c, GcTime.some d => c ≤ d
  | GcTime.some _, GcTime.never => true
  | GcTime.never, GcTime.never => true
  | GcTime.never, _ => false

/-- Embedding of `QueryOptions` (the two fields the core engine reads;
`refetch_interval` and `resource_option` never reach the claims). -/
structure QueryOptions where
  stale_time : Option Int
  gc_time : Option Int
deriving DecidableEq, Repr

/-- Embedding of `QueryObserver` as the `Query` side sees it: its unique id
(`next_id` hands out increasing `u32`s, so subscription order of observers
is their id order), its options, and its optional fetch function, here an
opaque `Nat` tag (`None` is a passive observer). -/
structure QueryObserver where
  id : Nat
  options : QueryOptions
  fetcher : Option Nat
deriving DecidableEq, Repr

/-- Embedding of `QueryObserver::get_fetcher`. -/
def QueryObserver.get_fetcher (o : QueryObserver) : Option Nat := o.fetcher

/-- Modelled from the spec: `QueryData` (section 3, `data = (value, updated_at)`);
its definition lives in the crate root, which is not among the source files.
Field names follow the uses `data.data` in use_query.rs and `QueryData::now`. -/
structure QueryData (V : Type) where
  data : V
  updated_at : Int
deriving DecidableEq, Repr

/-- Embedding of `QueryData::now(data)`; the clock is an explicit argument. -/
def QueryData.now (v : V) (t : Int) : QueryData V := ⟨v, t⟩

/-- Modelled from the spec: `QueryState` (section 3) — `Created` (no data),
`Loading` (first fetch in flight), `Fetching(data)` (refresh in flight,
stale data retained), `Loaded(data)`, `Invalid(data)`. The variant list and
payloads are also pinned by every `match` on it in query.rs/use_query.rs. -/
inductive QueryState (V : Type) where
  | created
  | loading
  | fetching (d : QueryData V)
  | loaded (d : QueryData V)
  | invalid (d : QueryData V)
deriving DecidableEq, Repr

/-- Modelled from the spec: the `updated_at()` accessor on `QueryState`
(defined in the crate root, not among the source files): the timestamp of
the carried data, if any; `Created`/`Loading` carry none (section 3). -/
def QueryState.updated_at : QueryState V → Option Int
  | QueryState.created => Option.none
  | QueryState.loading => Option.none
  | QueryState.fetching d => Option.some d.updated_at
  | QueryState.loaded d => Option.some d.updated_at
  | QueryState.invalid d => Option.some d.updated_at

/-- Whether a state is the `Invalid` variant (`matches!(s, Invalid(_))`). -/
def QueryState.is_invalid : QueryState V → Bool
  | QueryState.invalid _ => true
  | _ => false

/-- Whether a state is the `Loaded` variant (`matches!(s, Loaded(_))`). -/
def QueryState.is_loaded : QueryState V → Bool
  | QueryState.loaded _ => true
  | _ => false

/-- Embedding of `Query` with its garbage collector's cells flattened in:
`current_request` records whether a cancellation sender is installed,
`observers` is the observer map in its (unspecified) iteration order,
`gc_time` and `gc_handle` are the `GarbageCollector` fields, the armed
handle storing the scheduled delay of the pending eviction timeout. -/
structure Query (K V : Type) where
  key : K
  current_request : Bool
  state : QueryState V
  observers : List QueryObserver
  gc_time : GcTime
  gc_handle : Option Int
deriving DecidableEq, Repr

/-- Embedding of `Query::new`. -/
def Query.new (key : K) : Query K V :=
  { key := key
    current_request := false
    state := QueryState.created
    observers := []
    gc_time := GcTime.none
    gc_handle := Option.none }

/-- Embedding of `Query::set_state`: observers are notified, the state cell
is replaced, the cache is notified, and if the new state is `Invalid` the
query re-enters `execute()`. The returned `Bool` records that `execute()`
call; the listener and cache notifications carry no state of their own. -/
def Query.set_state (q : Query K V) (state : QueryState V) : Query K V × Bool :=
  ({ q with state := state }, state.is_invalid)

/-- Embedding of `Query::maybe_map_state`: on `Ok` the new state is set (and
subscribers notified), on `Err` the previous state is written back untouched.
Returns (query, updated, execute-retriggered). -/
def Query.maybe_map_state (q : Query K V)
    (update_fn : QueryState V → Except (QueryState V) (QueryState V)) :
    Query K V × Bool × Bool :=
  match update_fn q.state with
  | Except.ok new_state =>
      let r := q.set_state new_state
      (r.1, true, r.2)
  | Except.error old_state => ({ q with state := old_state }, false, false)

/-- Embedding of `Query::mark_invalid`: `Loaded(data)` becomes
`Invalid(data)` (and via `set_state` retriggers execution), anything else is
left as is. Returns (query, updated, execute-retriggered). -/
def Query.mark_invalid (q : Query K V) : Query K V × Bool × Bool :=
  q.maybe_map_state (fun state =>
    match state with
    | QueryState.loaded data => Except.ok (QueryState.invalid data)
    | s => Except.error s)

/-- Embedding of `Query::get_updated_at`. -/
def Query.get_updated_at (q : Query K V) : Option Int := q.state.updated_at

/-- Embedding of `Query::update_gc_time` (delegating to the collector). -/
def Query.update_gc_time (q : Query K V) (gc_time : Option Int) : Query K V :=
  { q with gc_time := q.gc_time.update_gc_time gc_time }

/-- Embedding of `Query::disable_gc` / `GarbageCollector::disable_gc`:
idempotently clear any pending timeout. -/
def Query.disable_gc (q : Query K V) : Query K V :=
  { q with gc_handle := Option.none }

/-- Embedding of `Query::enable_gc` / `GarbageCollector::enable_gc`: a no-op
when a timeout is already pending, when the policy is Unset (`GcTime.none`)
or Unbounded (`GcTime.never`), or when the state has no timestamp; otherwise
arm a one-shot eviction timeout after `time_until_stale updated_at gc_time now`. -/
def Query.enable_gc (q : Query K V) (now : Int) : Query K V :=
  if q.gc_handle.isSome then q
  else
    match q.gc_time, q.get_updated_at with
    | GcTime.some gc_time, Option.some updated_at =>
        { q with gc_handle := Option.some (time_until_stale updated_at gc_time now) }
    | _, _ => q

/-- Insertion of an observer at a given slot of the iteration-order list
(the position a `HashMap` insertion lands at is hash- and seed-dependent,
so it is an explicit parameter; positions past the end append). -/
def insertObsAt : Nat → QueryObserver → List QueryObserver → List QueryObserver
  | _, o, [] => [o]
  | 0, o, l => o :: l
  | Nat.succ n, o, a :: l => a :: insertObsAt n o l

/-- Embedding of `Query::subscribe`: if the observer id is already present
nothing happens; otherwise the observer is inserted (at the unspecified map
position `pos`), any pending GC timeout is cleared, the GC policy is raised
by the observer's requested `gc_time`, and a new-observer event (opaque
here) is announced. -/
def Query.subscribeAt (q : Query K V) (pos : Nat) (o : QueryObserver) : Query K V :=
  if q.observers.any (fun ob => ob.id == o.id) then q
  else
    (({ q with observers := insertObsAt pos o q.observers }).disable_gc).update_gc_time
      o.options.gc_time

/-- Embedding of `Query::unsubscribe`: remove the observer's binding (an
observer-removed event, opaque here, is announced if one was removed), then
re-arm GC exactly when the remaining observer set is empty. -/
def Query.unsubscribe (q : Query K V) (o : QueryObserver) (now : Int) : Query K V :=
  if (q.observers.filter (fun ob => ob.id != o.id)).isEmpty then
    ({ q with observers := q.observers.filter (fun ob => ob.id != o.id) }).enable_gc now
  else { q with observers := q.observers.filter (fun ob => ob.id != o.id) }

/-- Embedding of `Query::is_stale`: minimum declared `stale_time` across the
subscribed observers, compared against the state's timestamp at clock `now`. -/
def Query.is_stale (q : Query K V) (now : Int) : Bool :=
  let stale_time := (q.observers.filterMap (fun o => o.options.stale_time)).min?
  let updated_at := q.state.updated_at
  match updated_at, stale_time with
  | Option.some u, Option.some s => time_until_stale u s now == 0
  | _, _ => false

/-- Embedding of `Query::needs_execute`. -/
def Query.needs_execute (q : Query K V) (now : Int) : Bool :=
  (match q.state with | QueryState.created => true | _ => false)
    || (match q.state with | QueryState.invalid _ => true | _ => false)
    || q.is_stale now

/-- Embedding of `Query::new_execution`: install a fresh cancellation channel
only when none is outstanding; otherwise hand back `none`. -/
def Query.new_execution (q : Query K V) : Option Unit × Query K V :=
  if q.current_request then (Option.none, q)
  else (Option.some (), { q with current_request := true })

/-- Embedding of `Query::finalize_execution`. -/
def Query.finalize_execution (q : Query K V) : Query K V :=
  { q with current_request := false }

/-- Embedding of `Query::cancel`: consume and signal the outstanding sender,
reporting `false` when nothing was outstanding. -/
def Query.cancel (q : Query K V) : Query K V × Bool :=
  if q.current_request then ({ q with current_request := false }, true)
  else (q, false)

/-- Embedding of `Query::execute`: pick the first fetch function in the
observer map's iteration order (`observers.values().find_map(get_fetcher)`)
and, unless queries are suppressed, spawn `execute_query` with it. Returns
the tag of the spawned fetch function, `none` when nothing was spawned. -/
def Query.execute (q : Query K V) (suppressed : Bool) : Option Nat :=
  match q.observers.findSome? QueryObserver.get_fetcher with
  | Option.some fetcher => if suppressed then Option.none else Option.some fetcher
  | Option.none => Option.none

/-- The branch `execute_query` is in between its two suspension-free halves:
a first load (entered from `Created`) or a refresh (entered from
`Loaded`/`Invalid`, retaining the pre-refresh data). -/
inductive ExecPhase (V : Type) where
  | firstLoad
  | refresh (d : QueryData V)
deriving DecidableEq, Repr

/-- Embedding of the synchronous prefix of `execute_query`, up to the await
of the raced fetch: the suppression check, `new_execution`, the branch on
`get_state` moving `Created` to `Loading` and `Loaded`/`Invalid` to
`Fetching`, and — in those two branches only — the fetcher invocation. A
returned phase of `none` means no fetch was started (and no fetcher
invoked); the `Loading`/`Fetching` entry branch is the debug-asserted
"already loading" defect path, which only finalizes. -/
def execute_query_start (q : Query K V) (suppressed : Bool) :
    Query K V × Option (ExecPhase V) :=
  if suppressed then (q, Option.none)
  else
    match q.new_execution with
    | (Option.none, q1) => (q1, Option.none)
    | (Option.some _, q1) =>
        match q1.state with
        | QueryState.created =>
            ((q1.set_state QueryState.loading).1, Option.some ExecPhase.firstLoad)
        | QueryState.loaded data =>
            ((q1.set_state (QueryState.fetching data)).1, Option.some (ExecPhase.refresh data))
        | QueryState.invalid data =>
            ((q1.set_state (QueryState.fetching data)).1, Option.some (ExecPhase.refresh data))
        | QueryState.loading => (q1.finalize_execution, Option.none)
        | QueryState.fetching _ => (q1.finalize_execution, Option.none)

/-- Embedding of the continuation of `execute_query` after the raced fetch
settles: `some v` (the fetch won with value `v`) always yields
`Loaded(QueryData::now v)`; `none` (failure or cancellation) reverts a first
load to `Created` and a refresh — via `maybe_map_state`, so only while still
`Fetching` — to `Loaded` of the retained data; then `finalize_execution`. -/
def execute_query_settle (q : Query K V) (phase : ExecPhase V) (outcome : Option V)
    (now : Int) : Query K V :=
  let q1 :=
    match phase, outcome with
    | _, Option.some v => (q.set_state (QueryState.loaded (QueryData.now v now))).1
    | ExecPhase.firstLoad, Option.none => (q.set_state QueryState.created).1
    | ExecPhase.refresh _, Option.none =>
        (q.maybe_map_state (fun state =>
          match state with
          | QueryState.fetching data => Except.ok (QueryState.loaded data)
          | s => Except.error s)).1
  q1.finalize_execution

/-- One uninterleaved run of `execute_query`: the synchronous prefix, and —
when a fetch actually started — its settlement with the given outcome. -/
def execute_query_run (q : Query K V) (suppressed : Bool) (outcome : Option V)
    (now : Int) : Query K V :=
  match execute_query_start q suppressed with
  | (q1, Option.none) => q1
  | (q1, Option.some phase) => execute_query_settle q1 phase outcome now

/-!
The cache registry (query_cache.rs). The `(TypeId, TypeId)` partition keys
are erased to `Nat`; every partition is then a key-to-query association
list over the erased key/value types `Nat`/`Nat`, standing for one
homogeneous `CacheEntry<K, V>` map. `HashMap::remove`/in-place partition
updates affect exactly the (unique) binding of the given key, so they are
embedded as first-match removal/replacement. The event bus, the persistence
backend and the reactive `RwSignal` around `size` are opaque; the deferred
microtask that resets `size` in `clear_all_queries` is a separate step
(`clear_size_reset`) after the synchronous drain
(`clear_all_queries_drain`), mirroring how the source queues `size.set(0)`
with `queue_microtask`.
-/

/-- A query as stored in the (type-erased) registry. -/
abbrev QueryM := Query Nat Nat

/-- One type partition's map, as an association list. -/
abbrev Partition := List (Nat × QueryM)

/-- Lookup of a type partition (`cache.get(&type_key)`). -/
def lookupPartition : List (Nat × Partition) → Nat → Option Partition
  | [], _ => Option.none
  | p :: rest, tk => if p.1 == tk then Option.some p.2 else lookupPartition rest tk

/-- Replace the partition stored under `tk`, inserting it if absent
(`cache.entry(type_key)` + write back of the mutated map). -/
def setPartition : List (Nat × Partition) → Nat → Partition → List (Nat × Partition)
  | [], tk, m => [(tk, m)]
  | p :: rest, tk, m => if p.1 == tk then (tk, m) :: rest else p :: setPartition rest tk m

/-- Removal of the binding of key `k` from a partition (`HashMap::remove`). -/
def removeEntry : Partition → Nat → Partition
  | [], _ => []
  | e :: rest, k => if e.1 == k then rest else e :: removeEntry rest k

/-- Embedding of `QueryCache`: the partitioned map and the incrementally
maintained entry counter behind the `size` signal. -/
structure QueryCache where
  cache : List (Nat × Partition)
  size : Nat
deriving DecidableEq, Repr

/-- Embedding of `QueryCache::new`. -/
def QueryCache.new : QueryCache := { cache := [], size := 0 }

/-- The recomputed "true" entry count: the sum of the sizes of all typed
sub-maps (`cache.values().map(|b| b.size()).sum()` in the diagnostic
`size()` read). -/
def QueryCache.sum_sizes (c : QueryCache) : Nat :=
  (c.cache.map (fun p => p.2.length)).sum

/-- Embedding of the `size()` read of the maintained counter. -/
def QueryCache.size_read (c : QueryCache) : Nat := c.size

/-- Embedding of `QueryCache::get_query` (via `use_cache_option`). -/
def QueryCache.get_query (c : QueryCache) (tk k : Nat) : Option QueryM :=
  match lookupPartition c.cache tk with
  | Option.some part => (part.find? (fun e => e.1 == k)).map Prod.snd
  | Option.none => Option.none

/-- Whether the registry currently holds a query under `(tk, k)`. -/
def QueryCache.contains_query (c : QueryCache) (tk k : Nat) : Bool :=
  (c.get_query tk k).isSome

/-- Embedding of `QueryCache::get_or_create_query`: `use_cache` materializes
the partition for the type key, a hit returns the existing query, a miss
creates, inserts and announces a fresh `Query::new` (the creation event and
the persistence hydration task are opaque) and, after leaving the borrow,
bumps the size counter. -/
def QueryCache.get_or_create_query (c : QueryCache) (tk k : Nat) : QueryCache × QueryM :=
  match lookupPartition c.cache tk with
  | Option.some part =>
      match part.find? (fun e => e.1 == k) with
      | Option.some e => (c, e.2)
      | Option.none =>
          let query : QueryM := Query.new k
          ({ cache := setPartition c.cache tk (part ++ [(k, query)])
             size := c.size + 1 }, query)
  | Option.none =>
      let query : QueryM := Query.new k
      ({ cache := setPartition c.cache tk [(k, query)], size := c.size + 1 }, query)

/-- Embedding of `QueryCache::evict_query`: remove the binding if present,
announce the removal (opaque), and decrement the counter, guarding against
going below zero; report whether a query was removed. -/
def QueryCache.evict_query (c : QueryCache) (tk k : Nat) : QueryCache × Bool :=
  match lookupPartition c.cache tk with
  | Option.none => (c, false)
  | Option.some part =>
      match part.find? (fun e => e.1 == k) with
      | Option.none => (c, false)
      | Option.some _ =>
          ({ cache := setPartition c.cache tk (removeEntry part k)
             size := if c.size > 0 then c.size - 1 else c.size }, true)

/-- Embedding of `QueryCache::invalidate_all_queries`: every partition's
`CacheEntry::invalidate` calls `mark_invalid` on each of its queries. -/
def QueryCache.invalidate_all_queries (c : QueryCache) : QueryCache :=
  { c with cache :=
      c.cache.map (fun p => (p.1, p.2.map (fun e => (e.1, e.2.mark_invalid.1)))) }

/-- Embedding of the synchronous part of `QueryCache::clear_all_queries`:
drain every partition (disposing each query and announcing its removal —
opaque) and ask the persistence backend to clear (opaque). The counter is
NOT touched here: the source queues `size.set(0)` as a microtask, so at the
point this returns the reset is still pending. -/
def QueryCache.clear_all_queries_drain (c : QueryCache) : QueryCache :=
  { cache := c.cache.map (fun p => (p.1, ([] : Partition))), size := c.size }

/-- Embedding of the microtask queued by `clear_all_queries`: the
unconditional `size.set(0)`, running after the current task yields. -/
def QueryCache.clear_size_reset (c : QueryCache) : QueryCache :=
  { c with size := 0 }

/-- One uninterrupted run of `clear_all_queries`: the synchronous drain
followed by its queued counter reset, with no registry operation or read in
between. -/
def QueryCache.clear_all_queries (c : QueryCache) : QueryCache :=
  c.clear_all_queries_drain.clear_size_reset

/-- The registry states reachable from a fresh cache through its mutating
operations, in runs where each `clear_all_queries`' queued counter reset
fires before the next registry operation or read (the `clear_all` step is
the uninterrupted drain-then-reset composition). States inside the
microtask window are NOT covered: there the counter diverges from the
partition sum — see the C9 counterexample. -/
inductive QueryCache.Reachable : QueryCache → Prop where
  | new : QueryCache.Reachable QueryCache.new
  | get_or_create {c : QueryCache} (tk k : Nat) :
      QueryCache.Reachable c → QueryCache.Reachable (c.get_or_create_query tk k).1
  | evict {c : QueryCache} (tk k : Nat) :
      QueryCache.Reachable c → QueryCache.Reachable (c.evict_query tk k).1
  | invalidate_all {c : QueryCache} :
      QueryCache.Reachable c → QueryCache.Reachable c.invalidate_all_queries
  | clear_all {c : QueryCache} :
      QueryCache.Reachable c → QueryCache.Reachable c.clear_all_queries

/-!
Supporting lemmas (shared between the claim theorems).
-/

theorem findSome?_eq_head?_filterMap {α β : Type} (f : α → Option β) :
    ∀ l : List α, l.findSome? f = (l.filterMap f).head? := by
  intro l
  induction l with
  | nil => rfl
  | cons a l ih =>
      rw [List.findSome?_cons, List.filterMap_cons]
      cases h : f a with
      | some b => simp
      | none => simpa using ih

theorem time_until_stale_eq_zero_iff (u s now : Int) :
    time_until_stale u s now = 0 ↔ u + s ≤ now := by
  unfold time_until_stale
  constructor <;> intro h <;> omega

theorem mark_invalid_loaded {K V : Type} (q : Query K V) (d : QueryData V)
    (h : q.state = QueryState.loaded d) :
    q.mark_invalid = ({ q with state := QueryState.invalid d }, true, true) := by
  simp [Query.mark_invalid, Query.maybe_map_state, Query.set_state, h, QueryState.is_invalid]

theorem mark_invalid_not_loaded {K V : Type} (q : Query K V)
    (h : q.state.is_loaded = false) : q.mark_invalid = (q, false, false) := by
  rcases q with ⟨key, cr, st, obs, gt, gh⟩
  cases st <;>
    simp_all [Query.mark_invalid, Query.maybe_map_state, Query.set_state, QueryState.is_loaded]

theorem find?_fst_map_entry (g : QueryM → QueryM) (k : Nat) :
    ∀ part : Partition,
      (part.map (fun e => (e.1, g e.2))).find? (fun e => e.1 == k)
        = (part.find? (fun e => e.1 == k)).map (fun e => (e.1, g e.2)) := by
  intro part
  induction part with
  | nil => rfl
  | cons e rest ih =>
      by_cases h : e.1 == k <;> simp [List.find?_cons, h, ih]

theorem lookupPartition_map (g : Partition → Partition) (tk : Nat) :
    ∀ cs : List (Nat × Partition),
      lookupPartition (cs.map (fun p => (p.1, g p.2))) tk
        = (lookupPartition cs tk).map g := by
  intro cs
  induction cs with
  | nil => rfl
  | cons p rest ih =>
      by_cases h : p.1 == tk <;> simp [lookupPartition, h, ih]

theorem get_query_invalidate_all (c : QueryCache) (tk k : Nat) :
    (c.invalidate_all_queries).get_query tk k
      = (c.get_query tk k).map (fun q => q.mark_invalid.1) := by
  unfold QueryCache.get_query QueryCache.invalidate_all_queries
  rw [lookupPartition_map (fun part => part.map (fun e => (e.1, e.2.mark_invalid.1))) tk]
  cases hp : lookupPartition c.cache tk with
  | none => simp
  | some part =>
      simp only [Option.map_some']
      rw [find?_fst_map_entry (fun x => x.mark_invalid.1) k part]
      cases hf : part.find? (fun e => e.1 == k) <;> simp

/-!
Claim theorems.
-/

/-- C5: the GC policy merge `update_gc_time` is a monotonic widening: from
Unset any Bounded(d) is adopted and an absent request keeps Unset; from
Bounded(c) an incoming Bounded(d) replaces it only when d > c; from
Bounded(c) an absent request yields Unbounded; from Unbounded every request
is ignored; the call sequence Some 10s, Some 5s, None passes through
Bounded 10s and ends at Unbounded; and the policy never decreases in the
widening order. -/
theorem c5_gc_policy_merge_monotonic :
    (∀ d : Int, GcTime.none.update_gc_time (Option.some d) = GcTime.some d)
    ∧ GcTime.none.update_gc_time Option.none = GcTime.none
    ∧ (∀ c d : Int, (GcTime.some c).update_gc_time (Option.some d)
        = if d > c then GcTime.some d else GcTime.some c)
    ∧ (∀ c : Int, (GcTime.some c).update_gc_time Option.none = GcTime.never)
    ∧ (∀ r : Option Int, GcTime.never.update_gc_time r = GcTime.never)
    ∧ (GcTime.none.update_gc_time (Option.some 10000)).update_gc_time (Option.some 5000)
        = GcTime.some 10000
    ∧ ((GcTime.none.update_gc_time (Option.some 10000)).update_gc_time
        (Option.some 5000)).update_gc_time Option.none = GcTime.never
    ∧ (∀ (g : GcTime) (r : Option Int), g.wle (g.update_gc_time r) = true) := by
  refine ⟨fun d => rfl, rfl, fun c d => rfl, fun c => rfl, fun r => ?_, by decide, by decide, ?_⟩
  · cases r <;> rfl
  · intro g r
    cases g with
    | none => cases r <;> simp [GcTime.update_gc_time, GcTime.wle, GcTime.from_option]
    | never => cases r <;> simp [GcTime.update_gc_time, GcTime.wle]
    | some c =>
        cases r with
        | none => simp [GcTime.update_gc_time, GcTime.wle]
        | some d =>
            simp only [GcTime.update_gc_time]
            by_cases h : d > c <;> simp [h, GcTime.wle, decide_eq_true_eq] <;> omega

/-- C3: `mark_invalid` on a `Loaded(d)` query moves it to `Invalid(d)`,
returns `true`, and — through `set_state` seeing an `Invalid` state —
synchronously re-enters `execute()` (the third component); in every other
state it leaves the query unchanged and returns `false` without triggering
an execution. -/
theorem c3_mark_invalid_behaviour {K V : Type} :
    ∀ q : Query K V,
      (∀ d : QueryData V, q.state = QueryState.loaded d →
        q.mark_invalid = ({ q with state := QueryState.invalid d }, true, true))
      ∧ (q.state.is_loaded = false → q.mark_invalid = (q, false, false)) := by
  intro q
  exact ⟨fun d h => mark_invalid_loaded q d h, fun h => mark_invalid_not_loaded q h⟩

/-- Concrete loaded query used as input for the C3 witness. -/
def qC3 : Query Nat Nat :=
  { (Query.new 1 : Query Nat Nat) with state := QueryState.loaded ⟨7, 5⟩ }

/-- C3 witness: the theorem applied at a loaded query and at a fresh
(`Created`) query. -/
theorem c3_mark_invalid_witness :
    qC3.mark_invalid = ({ qC3 with state := QueryState.invalid ⟨7, 5⟩ }, true, true)
    ∧ (Query.new 1 : Query Nat Nat).mark_invalid = (Query.new 1, false, false) :=
  ⟨(c3_mark_invalid_behaviour qC3).1 ⟨7, 5⟩ rfl,
   (c3_mark_invalid_behaviour (Query.new 1)).2 rfl⟩

/-- C10: `enable_gc` is a no-op whenever the state carries no timestamp
(`get_updated_at` is `none`), whatever the merged GC policy — so no eviction
timeout is ever armed for a query that never loaded; and `Created`/`Loading`
states indeed carry no timestamp. -/
theorem c10_enable_gc_needs_timestamp {K V : Type} :
    ∀ (q : Query K V) (now : Int),
      (q.get_updated_at = Option.none → q.enable_gc now = q)
      ∧ (q.state = QueryState.created ∨ q.state = QueryState.loading →
          q.get_updated_at = Option.none) := by
  intro q now
  constructor
  · intro h
    unfold Query.enable_gc
    by_cases hh : q.gc_handle.isSome
    · simp [hh]
    · simp only [hh, if_false, Bool.false_eq_true]
      rw [h]
      cases q.gc_time <;> simp
  · intro h
    rcases h with h | h <;> simp [Query.get_updated_at, h, QueryState.updated_at]

/-- C10 witness: the theorem applied at a fresh query with a bounded GC
policy. -/
theorem c10_enable_gc_needs_timestamp_witness :
    ((Query.new 3 : Query Nat Nat).update_gc_time (Option.some 100)).enable_gc 50
      = (Query.new 3 : Query Nat Nat).update_gc_time (Option.some 100) :=
  (c10_enable_gc_needs_timestamp ((Query.new 3 : Query Nat Nat).update_gc_time
    (Option.some 100)) 50).1 rfl

/-- C4: `is_stale` returns `true` exactly when the state carries a
timestamp, at least one subscribed observer declares a `stale_time`, and the
timestamp plus the minimum declared `stale_time` has been reached by the
clock; in particular it is `false` when no subscribed observer declares a
`stale_time` or the state has no data. -/
theorem c4_is_stale_iff {K V : Type} :
    ∀ (q : Query K V) (now : Int),
      q.is_stale now = true ↔
        ∃ (u : Int) (s : Int),
          q.state.updated_at = Option.some u
          ∧ (q.observers.filterMap (fun o => o.options.stale_time)).min? = Option.some s
          ∧ u + s ≤ now := by
  intro q now
  unfold Query.is_stale
  cases hu : q.state.updated_at with
  | none => simp [hu]
  | some u =>
      cases hs : (q.observers.filterMap (fun o => o.options.stale_time)).min? with
      | none => simp [hs]
      | some s =>
          simp only [hs, hu, beq_iff_eq, time_until_stale_eq_zero_iff, Option.some.injEq]
          constructor
          · intro h
            exact ⟨u, s, rfl, rfl, h⟩
          · rintro ⟨u', s', hu', hs', hle⟩
            omega

/-- Observer used in the C4 witness: declares a 50ms stale time. -/
def oC4 : QueryObserver :=
  { id := 1, options := { stale_time := Option.some 50, gc_time := Option.none },
    fetcher := Option.none }

/-- Query used in the C4 witness: loaded at t = 100 with observer `oC4`. -/
def qC4 : Query Nat Nat :=
  ({ (Query.new 1 : Query Nat Nat) with
      state := QueryState.loaded ⟨7, 100⟩ }).subscribeAt 0 oC4

/-- C4 witness: the theorem applied at a loaded, observed query whose data
age has reached the observer's stale time. -/
theorem c4_is_stale_iff_witness : qC4.is_stale 150 = true :=
  (c4_is_stale_iff qC4 150).mpr ⟨100, 50, rfl, rfl, by decide⟩

/-- C1: the single-flight gate. `new_execution` installs a cancellation
token only when none is present and returns `none` otherwise; consequently
an `execute_query` entered while a fetch is outstanding starts no fetch,
invokes no fetcher and leaves the query untouched; and settling an
execution ends with `finalize_execution`, after which `new_execution` — and
hence a later `execute()` — can proceed again. -/
theorem c1_single_flight {K V : Type} :
    (∀ q : Query K V, q.current_request = false →
      q.new_execution = (Option.some (), { q with current_request := true }))
    ∧ (∀ q : Query K V, q.current_request = true → q.new_execution = (Option.none, q))
    ∧ (∀ q : Query K V, q.current_request = true →
        execute_query_start q false = (q, Option.none))
    ∧ (∀ (q : Query K V) (phase : ExecPhase V) (outcome : Option V) (now : Int),
        (execute_query_settle q phase outcome now).current_request = false)
    ∧ (∀ (q : Query K V) (phase : ExecPhase V) (outcome : Option V) (now : Int),
        ((execute_query_settle q phase outcome now).new_execution).1
          = Option.some ()) := by
  have hsettle : ∀ (q : Query K V) (phase : ExecPhase V) (outcome : Option V) (now : Int),
      (execute_query_settle q phase outcome now).current_request = false := by
    intro q phase outcome now
    cases phase <;> cases outcome <;>
      simp [execute_query_settle, Query.maybe_map_state, Query.set_state,
        Query.finalize_execution]
  refine ⟨?_, ?_, ?_, hsettle, ?_⟩
  · intro q h
    simp [Query.new_execution, h]
  · intro q h
    simp [Query.new_execution, h]
  · intro q h
    simp [execute_query_start, Query.new_execution, h]
  · intro q phase outcome now
    simp [Query.new_execution, hsettle q phase outcome now]

/-- Query with an outstanding fetch, input for the C1 witness. -/
def qC1 : Query Nat Nat := { (Query.new 0 : Query Nat Nat) with current_request := true }

/-- C1 witness: the theorem applied at a fresh query (no token: one is
installed) and at a query with an outstanding fetch (`new_execution`
declines and `execute_query` start performs nothing). -/
theorem c1_single_flight_witness :
    (Query.new 0 : Query Nat Nat).new_execution = (Option.some (), qC1)
    ∧ qC1.new_execution = (Option.none, qC1)
    ∧ execute_query_start qC1 false = (qC1, Option.none) :=
  ⟨c1_single_flight.1 (Query.new 0) rfl,
   c1_single_flight.2.1 qC1 rfl,
   c1_single_flight.2.2.1 qC1 rfl⟩

/-- C2: outcome application of one (uninterleaved) execution with no fetch
already outstanding. A fetch completing with `v` always yields
`Loaded (v, now)`; a failed or cancelled first load (started from `Created`)
reverts to `Created`; a failed or cancelled refresh (started from
`Loaded d` or `Invalid d`) reverts to `Loaded d`, keeping the pre-refresh
data — cached data is never lost. -/
theorem c2_outcome_application {K V : Type} :
    ∀ (q : Query K V) (now : Int), q.current_request = false →
      (∀ v : V, q.state = QueryState.created →
        (execute_query_run q false (Option.some v) now).state
          = QueryState.loaded (QueryData.now v now))
      ∧ (q.state = QueryState.created →
          (execute_query_run q false Option.none now).state = QueryState.created)
      ∧ (∀ (d : QueryData V) (v : V),
          q.state = QueryState.loaded d ∨ q.state = QueryState.invalid d →
          (execute_query_run q false (Option.some v) now).state
            = QueryState.loaded (QueryData.now v now))
      ∧ (∀ d : QueryData V,
          q.state = QueryState.loaded d ∨ q.state = QueryState.invalid d →
          (execute_query_run q false Option.none now).state = QueryState.loaded d) := by
  intro q now hreq
  refine ⟨?_, ?_, ?_, ?_⟩
  · intro v hst
    simp [execute_query_run, execute_query_start, Query.new_execution, hreq, hst,
      execute_query_settle, Query.set_state, Query.finalize_execution]
  · intro hst
    simp [execute_query_run, execute_query_start, Query.new_execution, hreq, hst,
      execute_query_settle, Query.set_state, Query.finalize_execution]
  · intro d v hst
    rcases hst with hst | hst <;>
      simp [execute_query_run, execute_query_start, Query.new_execution, hreq, hst,
        execute_query_settle, Query.set_state, Query.finalize_execution]
  · intro d hst
    rcases hst with hst | hst <;>
      simp [execute_query_run, execute_query_start, Query.new_execution, hreq, hst,
        execute_query_settle, Query.maybe_map_state, Query.set_state,
        Query.finalize_execution]

/-- Query loaded with data (3, 40), input for the C2 witness. -/
def qC2 : Query Nat Nat :=
  { (Query.new 0 : Query Nat Nat) with state := QueryState.loaded ⟨3, 40⟩ }

/-- C2 witness: the theorem applied at a fresh query (first load: success
loads, failure reverts to `Created`) and at a loaded query (refresh:
success replaces the data, failure keeps the pre-refresh data). -/
theorem c2_outcome_application_witness :
    (execute_query_run (Query.new 0 : Query Nat Nat) false (Option.some 9) 77).state
      = QueryState.loaded ⟨9, 77⟩
    ∧ (execute_query_run (Query.new 0 : Query Nat Nat) false Option.none 77).state
      = QueryState.created
    ∧ (execute_query_run qC2 false (Option.some 9) 77).state = QueryState.loaded ⟨9, 77⟩
    ∧ (execute_query_run qC2 false Option.none 77).state = QueryState.loaded ⟨3, 40⟩ :=
  ⟨(c2_outcome_application (Query.new 0) 77 rfl).1 9 rfl,
   (c2_outcome_application (Query.new 0) 77 rfl).2.1 rfl,
   (c2_outcome_application qC2 77 rfl).2.2.1 ⟨3, 40⟩ 9 (Or.inl rfl),
   (c2_outcome_application qC2 77 rfl).2.2.2 ⟨3, 40⟩ (Or.inl rfl)⟩

/-- Formalization of the words of claim C6: observer ids are handed out by
`next_id` in strictly increasing order, so "first observer in subscription
order carrying a fetch function" is the carrier with the least id. -/
def Query.subscription_order_fetcher (q : Query K V) : Option Nat :=
  match ((q.observers.filter (fun o => o.fetcher.isSome)).map QueryObserver.id).min? with
  | Option.some i => (q.observers.find? (fun o => o.id == i)).bind QueryObserver.get_fetcher
  | Option.none => Option.none

/-- Observer subscribed first (id 1) in the C6 counterexample, carrying
fetch function 10. -/
def oC6a : QueryObserver :=
  { id := 1, options := { stale_time := Option.none, gc_time := Option.none },
    fetcher := Option.some 10 }

/-- Observer subscribed second (id 2) in the C6 counterexample, carrying
fetch function 20. -/
def oC6b : QueryObserver :=
  { id := 2, options := { stale_time := Option.none, gc_time := Option.none },
    fetcher := Option.some 20 }

/-- The C6 counterexample query: `oC6a` subscribes first, then `oC6b`; the
hash map places the later insertion at slot 0, so the iteration order is
[oC6b, oC6a] while the subscription order is [oC6a, oC6b]. -/
def qC6 : Query Nat Nat :=
  ((Query.new 0 : Query Nat Nat).subscribeAt 0 oC6a).subscribeAt 0 oC6b

/-- C6 counterexample: `execute` takes the fetcher by
`observers.values().find_map(..)`, i.e. by the `HashMap`'s unspecified
iteration order, not by subscription order. In `qC6` the first observer in
subscription order carrying a fetch function is `oC6a` (fetcher 10), but
`execute` uses fetcher 20, the first in iteration order. -/
theorem c6_counterexample :
    qC6.execute false = Option.some 20
    ∧ qC6.subscription_order_fetcher = Option.some 10
    ∧ qC6.execute false ≠ qC6.subscription_order_fetcher := by decide

/-- C6 (amended): when `execute()` runs, the fetcher used is the one carried
by the first observer in the observer map's iteration order (which is
unspecified and need not be the subscription order) that carries a fetch
function; if no subscribed observer carries a fetch function, `execute()`
performs nothing. -/
theorem c6_execute_fetcher_choice {K V : Type} :
    ∀ q : Query K V,
      q.execute false = (q.observers.filterMap QueryObserver.get_fetcher).head?
      ∧ (q.execute false = Option.none ↔
          ∀ o ∈ q.observers, o.get_fetcher = Option.none) := by
  intro q
  have h1 : q.execute false = q.observers.findSome? QueryObserver.get_fetcher := by
    unfold Query.execute
    cases q.observers.findSome? QueryObserver.get_fetcher <;> simp
  constructor
  · rw [h1, findSome?_eq_head?_filterMap]
  · rw [h1]
    exact List.findSome?_eq_none_iff

/-- C6 (amended) witness: the theorem applied at `qC6` (two fetch-carrying
observers, iteration order decides) and at a fresh query with no observers
(no fetcher, `execute` performs nothing). -/
theorem c6_execute_fetcher_choice_witness :
    qC6.execute false = (qC6.observers.filterMap QueryObserver.get_fetcher).head?
    ∧ (Query.new 0 : Query Nat Nat).execute false = Option.none :=
  ⟨(c6_execute_fetcher_choice qC6).1,
   (c6_execute_fetcher_choice (Query.new 0)).2.mpr (by intro o h; cases h)⟩

/-- Query in `Created` state sitting in the C7 counterexample registry. -/
def qC7 : QueryM := Query.new 5

/-- The C7 counterexample registry: one partition holding one query that
has never loaded. -/
def cC7 : QueryCache := { cache := [(0, [(5, qC7)])], size := 1 }

/-- C7 counterexample: `invalidate_all_queries` goes through `mark_invalid`,
which only moves `Loaded` queries to `Invalid`; on a registry whose only
query is still `Created` it changes nothing at all, so it does not mark
every query `Invalid` "regardless of the state the Query was in". -/
theorem c7_counterexample :
    cC7.invalidate_all_queries = cC7 ∧ QueryState.is_invalid qC7.state = false := by
  exact ⟨rfl, rfl⟩

/-- C7 (amended): `invalidate_all_queries` calls `mark_invalid` on every
query in every type partition: each query that was in state `Loaded d`
becomes `Invalid d` (which immediately re-triggers an execution attempt per
`set_state`), and every query in any other state is left unchanged. -/
theorem c7_invalidate_all_queries_behaviour :
    ∀ (c : QueryCache) (tk k : Nat) (q : QueryM),
      c.get_query tk k = Option.some q →
        (c.invalidate_all_queries).get_query tk k = Option.some q.mark_invalid.1
        ∧ (∀ d : QueryData Nat, q.state = QueryState.loaded d →
            q.mark_invalid.1.state = QueryState.invalid d ∧ q.mark_invalid.2.2 = true)
        ∧ (q.state.is_loaded = false → q.mark_invalid.1 = q) := by
  intro c tk k q h
  refine ⟨?_, ?_, ?_⟩
  · rw [get_query_invalidate_all, h]
    rfl
  · intro d hd
    rw [mark_invalid_loaded q d hd]
    exact ⟨rfl, rfl⟩
  · intro hnl
    rw [mark_invalid_not_loaded q hnl]

/-- Loaded query sitting in the C7 witness registry. -/
def qC7L : QueryM :=
  { (Query.new 9 : QueryM) with state := QueryState.loaded ⟨4, 11⟩ }

/-- The C7 witness registry: one partition holding one loaded query. -/
def cC7W : QueryCache := { cache := [(2, [(9, qC7L)])], size := 1 }

/-- C7 (amended) witness: the theorem applied at a registry holding a
loaded query, which `invalidate_all_queries` moves to `Invalid`. -/
theorem c7_invalidate_all_queries_witness :
    (cC7W.invalidate_all_queries).get_query 2 9 = Option.some qC7L.mark_invalid.1
    ∧ qC7L.mark_invalid.1.state = QueryState.invalid ⟨4, 11⟩ :=
  ⟨(c7_invalidate_all_queries_behaviour cC7W 2 9 qC7L rfl).1,
   ((c7_invalidate_all_queries_behaviour cC7W 2 9 qC7L rfl).2.1 ⟨4, 11⟩ rfl).1⟩

/-- The operations a `Query` is subjected to through its public entry points
(per the call graph: `enable_gc`/`disable_gc` are reached only from
`unsubscribe`/`subscribe`, `update_gc_time` only from `subscribe`). -/
inductive Query.Reachable : Query K V → Prop where
  | new (k : K) : Query.Reachable (Query.new k : Query K V)
  | subscribe {q : Query K V} (pos : Nat) (o : QueryObserver) :
      Query.Reachable q → Query.Reachable (q.subscribeAt pos o)
  | unsubscribe {q : Query K V} (o : QueryObserver) (now : Int) :
      Query.Reachable q → Query.Reachable (q.unsubscribe o now)
  | set_state {q : Query K V} (s : QueryState V) :
      Query.Reachable q → Query.Reachable (q.set_state s).1
  | mark_invalid {q : Query K V} :
      Query.Reachable q → Query.Reachable q.mark_invalid.1
  | start {q : Query K V} (sup : Bool) :
      Query.Reachable q → Query.Reachable (execute_query_start q sup).1
  | settle {q : Query K V} (phase : ExecPhase V) (outcome : Option V) (now : Int) :
      Query.Reachable q → Query.Reachable (execute_query_settle q phase outcome now)
  | cancel {q : Query K V} :
      Query.Reachable q → Query.Reachable q.cancel.1

theorem maybe_map_state_preserves {K V : Type} (q : Query K V)
    (f : QueryState V → Except (QueryState V) (QueryState V)) :
    (q.maybe_map_state f).1.observers = q.observers
    ∧ (q.maybe_map_state f).1.gc_handle = q.gc_handle := by
  unfold Query.maybe_map_state
  cases f q.state <;> simp [Query.set_state]

theorem enable_gc_preserves {K V : Type} (q : Query K V) (now : Int) :
    (q.enable_gc now).observers = q.observers
    ∧ (q.enable_gc now).state = q.state := by
  unfold Query.enable_gc
  by_cases hh : q.gc_handle.isSome
  · simp [hh]
  · simp only [hh, Bool.false_eq_true, if_false]
    cases q.gc_time <;> cases q.get_updated_at <;> simp

theorem start_preserves {K V : Type} (q : Query K V) (sup : Bool) :
    (execute_query_start q sup).1.observers = q.observers
    ∧ (execute_query_start q sup).1.gc_handle = q.gc_handle := by
  rcases q with ⟨key, cr, st, obs, gt, gh⟩
  cases sup <;> cases cr <;> cases st <;>
    simp [execute_query_start, Query.new_execution, Query.set_state,
      Query.finalize_execution]

theorem settle_preserves {K V : Type} (q : Query K V) (phase : ExecPhase V)
    (outcome : Option V) (now : Int) :
    (execute_query_settle q phase outcome now).observers = q.observers
    ∧ (execute_query_settle q phase outcome now).gc_handle = q.gc_handle := by
  rcases q with ⟨key, cr, st, obs, gt, gh⟩
  cases phase <;> cases outcome <;> cases st <;>
    simp [execute_query_settle, Query.maybe_map_state, Query.set_state,
      Query.finalize_execution]

/-- C8: the subscription/GC timer protocol. (1) In every reachable query
state, a pending GC timeout implies the observer set is empty (no timer is
pending while at least one observer is subscribed). (2) Under that
invariant, subscribing always leaves the query with no pending GC timeout.
(3) Re-subscribing an already present observer id is a no-op. (4) When
unsubscribing empties the observer set, GC is re-armed: with no pending
timeout, a bounded policy and a data timestamp, the eviction timeout is
scheduled after `time_until_stale u d now`. (5) When the observer set does
not become empty, unsubscribing does not touch the GC timeout. -/
theorem c8_subscribe_unsubscribe_gc {K V : Type} :
    (∀ q : Query K V, Query.Reachable q →
      q.observers ≠ [] → q.gc_handle = Option.none)
    ∧ (∀ (q : Query K V) (pos : Nat) (o : QueryObserver),
        (q.observers ≠ [] → q.gc_handle = Option.none) →
        (q.subscribeAt pos o).gc_handle = Option.none)
    ∧ (∀ (q : Query K V) (pos : Nat) (o : QueryObserver),
        q.observers.any (fun ob => ob.id == o.id) = true → q.subscribeAt pos o = q)
    ∧ (∀ (q : Query K V) (o : QueryObserver) (now : Int) (d : Int) (u : Int),
        q.observers.filter (fun ob => ob.id != o.id) = [] →
        q.gc_handle = Option.none → q.gc_time = GcTime.some d →
        q.get_updated_at = Option.some u →
        (q.unsubscribe o now).gc_handle = Option.some (time_until_stale u d now))
    ∧ (∀ (q : Query K V) (o : QueryObserver) (now : Int),
        q.observers.filter (fun ob => ob.id != o.id) ≠ [] →
        (q.unsubscribe o now).gc_handle = q.gc_handle) := by
  have hsub : ∀ (q : Query K V) (pos : Nat) (o : QueryObserver),
      (q.observers ≠ [] → q.gc_handle = Option.none) →
      (q.subscribeAt pos o).gc_handle = Option.none := by
    intro q pos o hinv
    unfold Query.subscribeAt
    by_cases hmem : q.observers.any (fun ob => ob.id == o.id)
    · simp only [hmem, if_true]
      apply hinv
      intro hnil
      rw [hnil] at hmem
      simp at hmem
    · simp [hmem, Query.update_gc_time, Query.disable_gc]
  refine ⟨?_, hsub, ?_, ?_, ?_⟩
  · intro q hq
    induction hq with
    | new k => intro h; exact absurd rfl h
    | @subscribe q pos o hq ih => intro h; exact hsub q pos o ih
    | @unsubscribe q o now hq ih =>
        intro h
        unfold Query.unsubscribe at h ⊢
        by_cases he : (q.observers.filter (fun ob => ob.id != o.id)).isEmpty
        · rw [if_pos he] at h
          exfalso
          apply h
          rw [(enable_gc_preserves _ now).1]
          simpa using he
        · rw [if_neg he] at h
          rw [if_neg he]
          show q.gc_handle = Option.none
          apply ih
          intro hnil
          apply he
          rw [hnil]
          rfl
    | @set_state q s hq ih => intro h; exact ih h
    | @mark_invalid q hq ih =>
        intro h
        unfold Query.mark_invalid at h ⊢
        rw [(maybe_map_state_preserves q _).2]
        apply ih
        rw [← (maybe_map_state_preserves q _).1]
        exact h
    | @start q sup hq ih =>
        intro h
        rw [(start_preserves q sup).2]
        apply ih
        rw [← (start_preserves q sup).1]
        exact h
    | @settle q phase outcome now hq ih =>
        intro h
        rw [(settle_preserves q phase outcome now).2]
        apply ih
        rw [← (settle_preserves q phase outcome now).1]
        exact h
    | @cancel q hq ih =>
        intro h
        unfold Query.cancel at h ⊢
        by_cases hcr : q.current_request
        · rw [if_pos hcr] at h; rw [if_pos hcr]; exact ih h
        · rw [if_neg hcr] at h; rw [if_neg hcr]; exact ih h
  · intro q pos o hmem
    unfold Query.subscribeAt
    simp [hmem]
  · intro q o now d u hemp hh hgt hu
    unfold Query.unsubscribe
    simp only [hemp, List.isEmpty_nil, if_true]
    unfold Query.get_updated_at at hu
    simp [Query.enable_gc, hh, hgt, Query.get_updated_at, hu]
  · intro q o now hne
    unfold Query.unsubscribe
    rw [if_neg (by simpa [List.isEmpty_iff] using hne)]

/-- Query reached by subscribing `oC4` to a fresh query, for the C8 witness. -/
def qSubW : Query Nat Nat := (Query.new 0 : Query Nat Nat).subscribeAt 0 oC4

/-- Loaded query with one observer (`oC4`), a bounded GC policy and no
pending timeout, input for the C8 witness. -/
def qC8 : Query Nat Nat :=
  { key := 2, current_request := false, state := QueryState.loaded ⟨1, 10⟩,
    observers := [oC4], gc_time := GcTime.some 30, gc_handle := Option.none }

/-- C8 witness: the theorem applied at concrete queries — a reachable
subscribed query has no pending timeout; subscribing leaves no timeout;
re-subscribing the present observer id changes nothing; unsubscribing the
last observer arms the eviction timeout; unsubscribing while another
observer remains does not touch the timeout. -/
theorem c8_subscribe_unsubscribe_gc_witness :
    qSubW.gc_handle = Option.none
    ∧ (qC8.subscribeAt 0 oC6a).gc_handle = Option.none
    ∧ qSubW.subscribeAt 1 oC4 = qSubW
    ∧ (qC8.unsubscribe oC4 25).gc_handle = Option.some (time_until_stale 10 30 25)
    ∧ (qC6.unsubscribe oC6a 25).gc_handle = qC6.gc_handle :=
  ⟨c8_subscribe_unsubscribe_gc.1 qSubW
      (Query.Reachable.subscribe 0 oC4
        (Query.Reachable.new 0 : Query.Reachable (Query.new 0 : Query Nat Nat)))
      (by decide),
   c8_subscribe_unsubscribe_gc.2.1 qC8 0 oC6a (fun _ => rfl),
   c8_subscribe_unsubscribe_gc.2.2.1 qSubW 1 oC4 (by decide),
   c8_subscribe_unsubscribe_gc.2.2.2.1 qC8 oC4 25 30 10 (by decide) rfl rfl rfl,
   c8_subscribe_unsubscribe_gc.2.2.2.2 qC6 oC6a 25 (by decide)⟩

/-- Sum of partition sizes of a raw partition list. -/
def sumSizes (cs : List (Nat × Partition)) : Nat :=
  (cs.map (fun p => p.2.length)).sum

theorem lookupPartition_some_sum (tk : Nat) :
    ∀ (cs : List (Nat × Partition)) (part m : Partition),
      lookupPartition cs tk = Option.some part →
      sumSizes (setPartition cs tk m) + part.length = sumSizes cs + m.length := by
  intro cs
  induction cs with
  | nil => intro part m h; cases h
  | cons p rest ih =>
      intro part m h
      unfold lookupPartition at h
      unfold setPartition
      by_cases hp : p.1 == tk
      · rw [if_pos hp] at h
        rw [if_pos hp]
        simp only [Option.some.injEq] at h
        simp [sumSizes, h]
        omega
      · rw [if_neg hp] at h
        rw [if_neg hp]
        have := ih part m h
        simp only [sumSizes, List.map_cons, List.sum_cons] at this ⊢
        omega

theorem lookupPartition_none_sum (tk : Nat) :
    ∀ (cs : List (Nat × Partition)) (m : Partition),
      lookupPartition cs tk = Option.none →
      sumSizes (setPartition cs tk m) = sumSizes cs + m.length := by
  intro cs
  induction cs with
  | nil => intro m h; simp [sumSizes, setPartition]
  | cons p rest ih =>
      intro m h
      unfold lookupPartition at h
      unfold setPartition
      by_cases hp : p.1 == tk
      · rw [if_pos hp] at h; cases h
      · rw [if_neg hp] at h
        rw [if_neg hp]
        have := ih m h
        simp only [sumSizes, List.map_cons, List.sum_cons] at this ⊢
        omega

theorem lookupPartition_some_le_sum (tk : Nat) :
    ∀ (cs : List (Nat × Partition)) (part : Partition),
      lookupPartition cs tk = Option.some part → part.length ≤ sumSizes cs := by
  intro cs
  induction cs with
  | nil => intro part h; cases h
  | cons p rest ih =>
      intro part h
      unfold lookupPartition at h
      by_cases hp : p.1 == tk
      · rw [if_pos hp] at h
        simp only [Option.some.injEq] at h
        simp [sumSizes, ← h]
      · rw [if_neg hp] at h
        have := ih part h
        simp only [sumSizes, List.map_cons, List.sum_cons] at this ⊢
        omega

theorem removeEntry_length (k : Nat) :
    ∀ (part : Partition) (e : Nat × QueryM),
      part.find? (fun x => x.1 == k) = Option.some e →
      (removeEntry part k).length + 1 = part.length := by
  intro part
  induction part with
  | nil => intro e h; cases h
  | cons x rest ih =>
      intro e h
      unfold removeEntry
      by_cases hx : x.1 == k
      · rw [if_pos hx]
        simp
      · rw [if_neg hx]
        rw [List.find?_cons_of_neg _ (by simpa using hx)] at h
        have := ih e h
        simp only [List.length_cons]
        omega

theorem sumSizes_map_entries (g : QueryM → QueryM) :
    ∀ cs : List (Nat × Partition),
      sumSizes (cs.map (fun p => (p.1, p.2.map (fun e => (e.1, g e.2))))) = sumSizes cs := by
  intro cs
  induction cs with
  | nil => rfl
  | cons p rest ih =>
      simp only [sumSizes, List.map_cons, List.sum_cons, List.length_map] at ih ⊢
      omega

theorem sumSizes_cleared :
    ∀ cs : List (Nat × Partition),
      sumSizes (cs.map (fun p => (p.1, ([] : Partition)))) = 0 := by
  intro cs
  induction cs with
  | nil => rfl
  | cons p rest ih =>
      simp only [sumSizes, List.map_cons, List.sum_cons, List.length_nil] at ih ⊢
      omega

theorem sum_sizes_invalidate_all (c : QueryCache) :
    c.invalidate_all_queries.sum_sizes = c.sum_sizes := by
  have := sumSizes_map_entries (fun q => q.mark_invalid.1) c.cache
  simpa [QueryCache.invalidate_all_queries, QueryCache.sum_sizes, sumSizes] using this

/-- Registry with one created entry, for the C9 counterexample and witness. -/
def cC9 : QueryCache := (QueryCache.new.get_or_create_query 0 5).1

/-- Registry mid-window in the C9 counterexample: a query created between
`clear_all_queries`' synchronous drain and its still-queued counter reset
(`get_or_create_query` can run there: the microtask only fires after the
current task yields). -/
def cC9Mid : QueryCache := (cC9.clear_all_queries_drain.get_or_create_query 1 7).1

/-- C9 counterexample: the source's `clear_all_queries` drains the
partitions synchronously but queues `size.set(0)` as a microtask. In the
window before that reset runs, a `size()` read on a registry that held one
entry sees counter 1 against partition sum 0 — the claimed
at-every-size()-read invariant fails (and the diagnostic assert in `size()`
fires). Worse, a query created inside the window raises the counter to 2
(sum 1), and the then-firing unconditional reset clobbers that increment,
leaving counter 0 with one stored entry. -/
theorem c9_counterexample :
    cC9.clear_all_queries_drain.size_read = 1
    ∧ cC9.clear_all_queries_drain.sum_sizes = 0
    ∧ cC9.clear_all_queries_drain.size_read ≠ cC9.clear_all_queries_drain.sum_sizes
    ∧ cC9Mid.size_read = 2
    ∧ cC9Mid.sum_sizes = 1
    ∧ cC9Mid.clear_size_reset.size_read = 0
    ∧ cC9Mid.clear_size_reset.sum_sizes = 1 := by
  refine ⟨rfl, rfl, ?_, rfl, rfl, rfl, rfl⟩
  decide

/-- C9 (amended): the entry-counter bookkeeping of the registry, outside
the microtask window of a clear. (1) In every registry state reachable in
runs where each `clear_all_queries`' queued counter reset fires before the
next operation or read, the maintained counter read by `size()` equals the
recomputed sum of the sizes of all typed sub-maps (the diagnostic
assertion). (2) `get_or_create_query` increments the counter exactly when a
query is created (a lookup miss). (3) `evict_query` reports a removal
exactly when the key was present, and decrements the counter — never below
zero — exactly on removal. (4) `clear_all_queries` drains every partition
while leaving the counter untouched until its deferred reset, which then
sets it to zero; after an uninterrupted drain-then-reset run both the
counter and the partition sum are zero. -/
theorem c9_size_counter_bookkeeping :
    (∀ c : QueryCache, QueryCache.Reachable c → c.size_read = c.sum_sizes)
    ∧ (∀ (c : QueryCache) (tk k : Nat),
        (c.get_or_create_query tk k).1.size_read
          = if c.contains_query tk k then c.size_read else c.size_read + 1)
    ∧ (∀ (c : QueryCache) (tk k : Nat),
        (c.evict_query tk k).2 = c.contains_query tk k
        ∧ (c.evict_query tk k).1.size_read
          = if c.contains_query tk k then
              (if 0 < c.size_read then c.size_read - 1 else c.size_read)
            else c.size_read)
    ∧ (∀ c : QueryCache,
        c.clear_all_queries_drain.size_read = c.size_read
        ∧ c.clear_all_queries_drain.sum_sizes = 0
        ∧ c.clear_size_reset.size_read = 0
        ∧ c.clear_all_queries.size_read = 0
        ∧ c.clear_all_queries.sum_sizes = 0) := by
  have hdrain : ∀ c : QueryCache, c.clear_all_queries_drain.sum_sizes = 0 := by
    intro c
    have := sumSizes_cleared c.cache
    simpa [QueryCache.clear_all_queries_drain, QueryCache.sum_sizes, sumSizes] using this
  have hclear : ∀ c : QueryCache,
      c.clear_all_queries_drain.size_read = c.size_read
      ∧ c.clear_all_queries_drain.sum_sizes = 0
      ∧ c.clear_size_reset.size_read = 0
      ∧ c.clear_all_queries.size_read = 0
      ∧ c.clear_all_queries.sum_sizes = 0 := by
    intro c
    refine ⟨rfl, hdrain c, rfl, rfl, ?_⟩
    have := hdrain c
    simpa [QueryCache.clear_all_queries, QueryCache.clear_size_reset,
      QueryCache.sum_sizes] using this
  refine ⟨?_, ?_, ?_, hclear⟩
  · intro c hc
    induction hc with
    | new => rfl
    | @get_or_create c tk k hc ih =>
        simp only [QueryCache.size_read, QueryCache.sum_sizes] at ih
        cases hp : lookupPartition c.cache tk with
        | some part =>
            cases hf : part.find? (fun e => e.1 == k) with
            | some e =>
                simp only [QueryCache.get_or_create_query, hp, hf,
                  QueryCache.size_read, QueryCache.sum_sizes]
                exact ih
            | none =>
                have hsum := lookupPartition_some_sum tk c.cache part
                  (part ++ [(k, (Query.new k : QueryM))]) hp
                simp only [QueryCache.get_or_create_query, hp, hf,
                  QueryCache.size_read, QueryCache.sum_sizes]
                simp only [sumSizes, List.length_append, List.length_cons,
                  List.length_nil] at hsum
                omega
        | none =>
            have hsum := lookupPartition_none_sum tk c.cache
              [(k, (Query.new k : QueryM))] hp
            simp only [QueryCache.get_or_create_query, hp,
              QueryCache.size_read, QueryCache.sum_sizes]
            simp only [sumSizes, List.length_cons, List.length_nil] at hsum
            omega
    | @evict c tk k hc ih =>
        simp only [QueryCache.size_read, QueryCache.sum_sizes] at ih
        cases hp : lookupPartition c.cache tk with
        | none =>
            simp only [QueryCache.evict_query, hp, QueryCache.size_read,
              QueryCache.sum_sizes]
            exact ih
        | some part =>
            cases hf : part.find? (fun e => e.1 == k) with
            | none =>
                simp only [QueryCache.evict_query, hp, hf, QueryCache.size_read,
                  QueryCache.sum_sizes]
                exact ih
            | some e =>
                have hsum := lookupPartition_some_sum tk c.cache part
                  (removeEntry part k) hp
                have hlen := removeEntry_length k part e hf
                have hle := lookupPartition_some_le_sum tk c.cache part hp
                simp only [QueryCache.evict_query, hp, hf, QueryCache.size_read,
                  QueryCache.sum_sizes]
                simp only [sumSizes] at hsum hle
                by_cases hz : 0 < c.size
                · rw [if_pos hz]
                  omega
                · rw [if_neg hz]
                  omega
    | @invalidate_all c hc ih =>
        have hs := sum_sizes_invalidate_all c
        have : c.invalidate_all_queries.size_read = c.size_read := rfl
        rw [this, hs]
        exact ih
    | @clear_all c hc ih => exact (hclear c).2.2.2.1.trans (hclear c).2.2.2.2.symm
  · intro c tk k
    cases hp : lookupPartition c.cache tk with
    | none =>
        simp [QueryCache.get_or_create_query, QueryCache.contains_query,
          QueryCache.get_query, QueryCache.size_read, hp]
    | some part =>
        cases hf : part.find? (fun e => e.1 == k) <;>
          simp [QueryCache.get_or_create_query, QueryCache.contains_query,
            QueryCache.get_query, QueryCache.size_read, hp, hf]
  · intro c tk k
    cases hp : lookupPartition c.cache tk with
    | none =>
        simp [QueryCache.evict_query, QueryCache.contains_query,
          QueryCache.get_query, QueryCache.size_read, hp]
    | some part =>
        cases hf : part.find? (fun e => e.1 == k) <;>
          simp [QueryCache.evict_query, QueryCache.contains_query,
            QueryCache.get_query, QueryCache.size_read, hp, hf]

/-- C9 witness: the invariant conjunct applied at the reachable registry
holding one entry, and the bookkeeping conjuncts applied there concretely. -/
theorem c9_size_counter_bookkeeping_witness :
    cC9.size_read = cC9.sum_sizes
    ∧ (cC9.get_or_create_query 0 5).1.size_read
        = if cC9.contains_query 0 5 then cC9.size_read else cC9.size_read + 1 :=
  ⟨c9_size_counter_bookkeeping.1 cC9
      (QueryCache.Reachable.get_or_create 0 5 QueryCache.Reachable.new),
   c9_size_counter_bookkeeping.2.1 cC9 0 5⟩

end LeptosQuery
